import Mathlib

/-!
Shallow embedding of `main final.cpp`, an in-memory inventory, request and
waitlist manager (`SistemaGestion`).  The C++ state is four `std::list`
fields; every method mutates the state and prints messages, so each method
is embedded as a function from the state to the new state paired with its
observable output.  Console prompts and the interactive menu loop are out
of scope; numeric fields (`double precio`, `int cantidad`) carry no
arithmetic in the program, and are embedded as `Rat` and `Int`.
-/

/-- Embeds `struct Producto { std::string nombre; double precio; int cantidad; }`. -/
structure Producto where
  nombre : String
  precio : Rat
  cantidad : Int
deriving DecidableEq

/-- Embeds `struct Solicitud { int id; std::string descripcion; }`. -/
structure Solicitud where
  id : Int
  descripcion : String
deriving DecidableEq

/-- Embeds `struct Cliente { int id; std::string nombre; }`. -/
structure Cliente where
  id : Int
  nombre : String
deriving DecidableEq

/-- Embeds `struct Cambio { std::string tipo; Producto producto; }`.  The program
only ever stores `"agregar"` or `"eliminar"` in `tipo`, but the field is a
plain string, mirroring the source. -/
structure Cambio where
  tipo : String
  producto : Producto
deriving DecidableEq

/-- The four lists owned by `class SistemaGestion`. -/
structure SistemaGestion where
  inventario : List Producto
  solicitudes : List Solicitud
  clientesEnEspera : List Cliente
  historialCambios : List Cambio
deriving DecidableEq

/-- A default-constructed `SistemaGestion sistema;`: four empty lists. -/
def estadoInicial : SistemaGestion := ⟨[], [], [], []⟩

/-- The predicate used by every `std::find_if` over the inventory:
`p.nombre == nombreProducto`. -/
def coincideNombre (n : String) (p : Producto) : Bool := p.nombre == n

/-- Comparator of `listarProductos`: `std::list::sort` with
`a.nombre < b.nombre` is a stable ascending sort, i.e. it orders by
`a.nombre ≤ b.nombre` keeping ties in the original order. -/
def nombreLE (a b : Producto) : Bool := decide (a.nombre ≤ b.nombre)

/-- Embeds `SistemaGestion::registrarProducto`: `push_back` on the inventory and a
`{"agregar", producto}` entry pushed onto the history, then a confirmation
message. -/
def registrarProducto (p : Producto) (s : SistemaGestion) :
    SistemaGestion × List String :=
  ({ s with inventario := s.inventario ++ [p],
            historialCambios := s.historialCambios ++ [⟨"agregar", p⟩] },
   ["Producto agregado: " ++ p.nombre])

/-- Embeds `SistemaGestion::eliminarProducto`: `find_if` by name; when found, push
a `{"eliminar", *it}` history entry and `erase` the found element (the
first match); otherwise report not found and change nothing. -/
def eliminarProducto (n : String) (s : SistemaGestion) :
    SistemaGestion × List String :=
  match s.inventario.find? (coincideNombre n) with
  | some p =>
      ({ s with historialCambios := s.historialCambios ++ [⟨"eliminar", p⟩],
                inventario := s.inventario.eraseP (coincideNombre n) },
       ["Producto eliminado: " ++ n])
  | none => (s, ["Producto no encontrado."])

/-- Embeds `SistemaGestion::consultarProducto`: `find_if` by name; prints the
fields of the first match or "Producto no encontrado.".  No mutation; the
observable result is the found product, if any. -/
def consultarProducto (n : String) (s : SistemaGestion) :
    SistemaGestion × Option Producto :=
  (s, s.inventario.find? (coincideNombre n))

/-- Embeds `SistemaGestion::listarProductos`: sorts the inventory in place with
`inventario.sort([](a, b){ return a.nombre < b.nombre; })` (a stable
ascending sort by name), then prints every product in the new stored
order.  The observable output is the printed sequence of products. -/
def listarProductos (s : SistemaGestion) : SistemaGestion × List Producto :=
  let inv := s.inventario.mergeSort nombreLE
  ({ s with inventario := inv }, inv)

/-- Embeds `SistemaGestion::registrarSolicitud`: `push_back` plus confirmation. -/
def registrarSolicitud (r : Solicitud) (s : SistemaGestion) :
    SistemaGestion × List String :=
  ({ s with solicitudes := s.solicitudes ++ [r] },
   ["Solicitud registrada: " ++ r.descripcion])

/-- Embeds `SistemaGestion::procesarSolicitud`: on a non-empty queue take
`front()`, `pop_front()` and report it; on an empty queue report that none
are pending. -/
def procesarSolicitud (s : SistemaGestion) : SistemaGestion × List String :=
  match s.solicitudes with
  | [] => (s, ["No hay solicitudes pendientes."])
  | r :: resto =>
      ({ s with solicitudes := resto },
       ["Procesando solicitud: " ++ r.descripcion])

/-- Embeds `SistemaGestion::consultarSolicitudEnProceso`: read `front()` without
removing it, or report that none are in process. -/
def consultarSolicitudEnProceso (s : SistemaGestion) :
    SistemaGestion × List String :=
  match s.solicitudes with
  | [] => (s, ["No hay solicitudes en proceso."])
  | r :: _ => (s, ["Solicitud en proceso: " ++ r.descripcion])

/-- Embeds `SistemaGestion::listarSolicitudesPendientes`: print every request
front to back, no removal. -/
def listarSolicitudesPendientes (s : SistemaGestion) :
    SistemaGestion × List String :=
  (s, s.solicitudes.map (fun r => "Solicitud pendiente: " ++ r.descripcion))

/-- Embeds `SistemaGestion::registrarClienteEnEspera`: `push_back` plus
confirmation. -/
def registrarClienteEnEspera (c : Cliente) (s : SistemaGestion) :
    SistemaGestion × List String :=
  ({ s with clientesEnEspera := s.clientesEnEspera ++ [c] },
   ["Cliente registrado: " ++ c.nombre])

/-- Embeds `SistemaGestion::atenderCliente`: dequeue and report `front()`, or
report that nobody is waiting. -/
def atenderCliente (s : SistemaGestion) : SistemaGestion × List String :=
  match s.clientesEnEspera with
  | [] => (s, ["No hay clientes en espera."])
  | c :: resto =>
      ({ s with clientesEnEspera := resto },
       ["Atendiendo cliente: " ++ c.nombre])

/-- Embeds `SistemaGestion::consultarListaDeEspera`: print every waiting client
front to back, no removal. -/
def consultarListaDeEspera (s : SistemaGestion) :
    SistemaGestion × List String :=
  (s, s.clientesEnEspera.map (fun c => "Cliente en espera: " ++ c.nombre))

/-- Embeds `SistemaGestion::deshacerUltimaAccion`: if the history is empty report
"No hay cambios para deshacer."; otherwise read `back()`, `pop_back()` it,
and branch on `tipo`: for `"agregar"` erase the first inventory product
whose name matches the logged product (printing only when a match exists);
for `"eliminar"` push the logged product back onto the inventory.  Any
other `tipo` (unreachable in the program) just consumes the entry. -/
def deshacerUltimaAccion (s : SistemaGestion) : SistemaGestion × List String :=
  match s.historialCambios.getLast? with
  | none => (s, ["No hay cambios para deshacer."])
  | some c =>
      let s1 := { s with historialCambios := s.historialCambios.dropLast }
      if c.tipo = "agregar" then
        match s1.inventario.find? (coincideNombre c.producto.nombre) with
        | some _ =>
            ({ s1 with
                inventario := s1.inventario.eraseP (coincideNombre c.producto.nombre) },
             ["Deshacer: Producto agregado eliminado: " ++ c.producto.nombre])
        | none => (s1, [])
      else if c.tipo = "eliminar" then
        ({ s1 with inventario := s1.inventario ++ [c.producto] },
         ["Deshacer: Producto eliminado restaurado: " ++ c.producto.nombre])
      else (s1, [])

/-- One menu action of the interactive loop, abstracting over the values
read from the console. -/
inductive Op where
  | registrarProductoOp (p : Producto)
  | eliminarProductoOp (n : String)
  | consultarProductoOp (n : String)
  | listarProductosOp
  | registrarSolicitudOp (r : Solicitud)
  | procesarSolicitudOp
  | consultarSolicitudOp
  | listarSolicitudesOp
  | registrarClienteOp (c : Cliente)
  | atenderClienteOp
  | consultarEsperaOp
  | deshacerOp

/-- The state transition performed by one menu action (the printed output
is dropped). -/
def applyOp : Op → SistemaGestion → SistemaGestion
  | .registrarProductoOp p, s => (registrarProducto p s).1
  | .eliminarProductoOp n, s => (eliminarProducto n s).1
  | .consultarProductoOp n, s => (consultarProducto n s).1
  | .listarProductosOp, s => (listarProductos s).1
  | .registrarSolicitudOp r, s => (registrarSolicitud r s).1
  | .procesarSolicitudOp, s => (procesarSolicitud s).1
  | .consultarSolicitudOp, s => (consultarSolicitudEnProceso s).1
  | .listarSolicitudesOp, s => (listarSolicitudesPendientes s).1
  | .registrarClienteOp c, s => (registrarClienteEnEspera c s).1
  | .atenderClienteOp, s => (atenderCliente s).1
  | .consultarEsperaOp, s => (consultarListaDeEspera s).1
  | .deshacerOp, s => (deshacerUltimaAccion s).1

/-- The state after a whole session: the menu actions applied in order to
the default-constructed system. -/
def ejecutar (ops : List Op) : SistemaGestion :=
  ops.foldl (fun s op => applyOp op s) estadoInicial

/-! ## Concrete fixtures used by witnesses -/

/-- A sample product. -/
def prodA : Producto := ⟨"manzana", 1, 5⟩

/-- A second sample product whose name sorts before `prodA`. -/
def prodB : Producto := ⟨"banana", 2, 3⟩

/-- A state whose inventory holds exactly `prodA`. -/
def estadoConA : SistemaGestion := ⟨[prodA], [], [], []⟩

/-- A state whose inventory is out of name order. -/
def estadoDesorden : SistemaGestion := ⟨[prodA, prodB], [], [], []⟩

/-- A state whose history claims `prodA` was added although the inventory
is empty (the product was independently removed after the add). -/
def estadoHuerfano : SistemaGestion := ⟨[], [], [], [⟨"agregar", prodA⟩]⟩

/-- A sample request. -/
def solA : Solicitud := ⟨0, "comprar pan"⟩

/-- A second sample request. -/
def solB : Solicitud := ⟨0, "vender leche"⟩

/-! ## Claims -/

/-- Claim C6: `RegisterProduct(p)` always succeeds: it appends `p` to the
end of the inventory and appends the entry `{"agregar", p}` to the end of
the change log, so the product count and the log length each grow by
exactly 1. -/
theorem registrarProducto_agrega (s : SistemaGestion) (p : Producto) :
    (registrarProducto p s).1.inventario = s.inventario ++ [p]
  ∧ (registrarProducto p s).1.historialCambios
      = s.historialCambios ++ [⟨"agregar", p⟩]
  ∧ (registrarProducto p s).1.inventario.length = s.inventario.length + 1
  ∧ (registrarProducto p s).1.historialCambios.length
      = s.historialCambios.length + 1 := by
  refine ⟨rfl, rfl, ?_, ?_⟩ <;> simp [registrarProducto]

/-- Claim C5: `UndoLast()` on an empty change log reports that there is
nothing to undo and leaves the whole state unchanged. -/
theorem deshacer_historial_vacio (s : SistemaGestion)
    (h : s.historialCambios = []) :
    deshacerUltimaAccion s = (s, ["No hay cambios para deshacer."]) := by
  simp [deshacerUltimaAccion, h]

/-- Witness for C5 at the initial state. -/
theorem deshacer_historial_vacio_witness :
    deshacerUltimaAccion estadoInicial
      = (estadoInicial, ["No hay cambios para deshacer."]) :=
  deshacer_historial_vacio estadoInicial rfl

/-- Claim C7: `RemoveProduct(name)` for a name matching no stored product
reports "Producto no encontrado." and leaves the whole state unchanged. -/
theorem eliminar_no_encontrado (s : SistemaGestion) (n : String)
    (h : ∀ q ∈ s.inventario, q.nombre ≠ n) :
    eliminarProducto n s = (s, ["Producto no encontrado."]) := by
  have hf : s.inventario.find? (coincideNombre n) = none := by
    rw [List.find?_eq_none]
    intro x hx
    simp only [coincideNombre, beq_iff_eq]
    exact h x hx
  simp [eliminarProducto, hf]

/-- Witness for C7: deleting an absent name from a one-product state. -/
theorem eliminar_no_encontrado_witness :
    eliminarProducto "pera" estadoConA
      = (estadoConA, ["Producto no encontrado."]) :=
  eliminar_no_encontrado estadoConA "pera" (by decide)

/-- Claim C1: registering `p` and then undoing removes a product named
`p.nombre` (the first such product) from the inventory, restores the
pre-registration product count, and removes the `"agregar"` entry from the
change log. -/
theorem registrar_luego_deshacer (s : SistemaGestion) (p : Producto) :
    ∃ l1 q l2,
      (registrarProducto p s).1.inventario = l1 ++ q :: l2
    ∧ q.nombre = p.nombre
    ∧ (∀ r ∈ l1, r.nombre ≠ p.nombre)
    ∧ (deshacerUltimaAccion (registrarProducto p s).1).1.inventario = l1 ++ l2
    ∧ (deshacerUltimaAccion (registrarProducto p s).1).1.inventario.length
        = s.inventario.length
    ∧ (deshacerUltimaAccion (registrarProducto p s).1).1.historialCambios
        = s.historialCambios := by
  have hmem : p ∈ s.inventario ++ [p] := by simp
  have hpa : coincideNombre p.nombre p = true := by simp [coincideNombre]
  obtain ⟨q, l1, l2, hl1, hq, hsplit, herase⟩ := List.exists_of_eraseP hmem hpa
  obtain ⟨y, hy⟩ : ∃ y,
      (s.inventario ++ [p]).find? (coincideNombre p.nombre) = some y := by
    have hs : ((s.inventario ++ [p]).find? (coincideNombre p.nombre)).isSome := by
      rw [List.find?_isSome]
      exact ⟨p, hmem, hpa⟩
    exact Option.isSome_iff_exists.mp hs
  have hinv : (deshacerUltimaAccion (registrarProducto p s).1).1.inventario
      = (s.inventario ++ [p]).eraseP (coincideNombre p.nombre) := by
    simp [deshacerUltimaAccion, registrarProducto, hy, List.getLast?_concat]
  have hlog : (deshacerUltimaAccion (registrarProducto p s).1).1.historialCambios
      = s.historialCambios := by
    simp [deshacerUltimaAccion, registrarProducto, hy, List.getLast?_concat]
  refine ⟨l1, q, l2, hsplit, ?_, ?_, ?_, ?_, hlog⟩
  · simpa [coincideNombre] using hq
  · intro r hr
    have hnr := hl1 r hr
    simpa [coincideNombre] using hnr
  · rw [hinv, herase]
  · rw [hinv, herase]
    have hlen := congrArg List.length hsplit
    simp only [List.length_append, List.length_cons, List.length_nil] at hlen ⊢
    omega

/-- Claim C2: when a product named `n` exists, removing it and then
undoing reinserts the removed snapshot (the first product that matched
`n`, with all of its fields) at the back of the inventory, restores the
pre-removal product count and the change log, and performs no duplicate
check: everything that survived the removal still coexists with the
reinserted copy. -/
theorem eliminar_luego_deshacer (s : SistemaGestion) (n : String)
    (h : ∃ q ∈ s.inventario, q.nombre = n) :
    ∃ q, s.inventario.find? (coincideNombre n) = some q
    ∧ q ∈ s.inventario ∧ q.nombre = n
    ∧ (deshacerUltimaAccion (eliminarProducto n s).1).1.inventario
        = s.inventario.eraseP (coincideNombre n) ++ [q]
    ∧ (∀ r ∈ s.inventario.eraseP (coincideNombre n),
         r ∈ (deshacerUltimaAccion (eliminarProducto n s).1).1.inventario)
    ∧ (deshacerUltimaAccion (eliminarProducto n s).1).1.inventario.length
        = s.inventario.length
    ∧ (deshacerUltimaAccion (eliminarProducto n s).1).1.historialCambios
        = s.historialCambios := by
  obtain ⟨q0, hq0, hq0n⟩ := h
  have hpa : coincideNombre n q0 = true := by simp [coincideNombre, hq0n]
  obtain ⟨q, hfind⟩ : ∃ y, s.inventario.find? (coincideNombre n) = some y := by
    have hs : (s.inventario.find? (coincideNombre n)).isSome := by
      rw [List.find?_isSome]
      exact ⟨q0, hq0, hpa⟩
    exact Option.isSome_iff_exists.mp hs
  have hqmem : q ∈ s.inventario := List.mem_of_find?_eq_some hfind
  have hqp : coincideNombre n q = true := List.find?_some hfind
  have hinv2 : (deshacerUltimaAccion (eliminarProducto n s).1).1.inventario
      = s.inventario.eraseP (coincideNombre n) ++ [q] := by
    simp [deshacerUltimaAccion, eliminarProducto, hfind, List.getLast?_concat]
  have hlog2 : (deshacerUltimaAccion (eliminarProducto n s).1).1.historialCambios
      = s.historialCambios := by
    simp [deshacerUltimaAccion, eliminarProducto, hfind, List.getLast?_concat]
  refine ⟨q, hfind, hqmem, by simpa [coincideNombre] using hqp, hinv2, ?_, ?_, hlog2⟩
  · intro r hr
    rw [hinv2]
    exact List.mem_append_left _ hr
  · rw [hinv2]
    have hlen := List.length_eraseP_of_mem hqmem hqp
    have hpos : 0 < s.inventario.length :=
      List.length_pos.mpr (List.ne_nil_of_mem hqmem)
    simp only [List.length_append, List.length_cons, List.length_nil, hlen]
    omega

/-- Witness for C2: remove the only product and undo; the change log ends
up empty again. -/
theorem eliminar_luego_deshacer_witness :
    (deshacerUltimaAccion (eliminarProducto "manzana" estadoConA).1).1.historialCambios
      = [] := by
  obtain ⟨q, -, -, -, -, -, -, hlog⟩ :=
    eliminar_luego_deshacer estadoConA "manzana" ⟨prodA, by simp [estadoConA], rfl⟩
  simpa [estadoConA] using hlog

/-- Claim C4: when the most recent log entry `e` has kind `"agregar"`,
undo erases the first inventory product named `e.producto.nombre` when one
exists and pops the entry; when no product matches, undo only pops the
entry, changes nothing else and reports no error (empty output). -/
theorem deshacer_entrada_agregar (s : SistemaGestion) (l : List Cambio)
    (e : Cambio) (hlog : s.historialCambios = l ++ [e])
    (htipo : e.tipo = "agregar") :
    ((∃ q ∈ s.inventario, q.nombre = e.producto.nombre) →
       ∃ l1 q l2, s.inventario = l1 ++ q :: l2
         ∧ (∀ r ∈ l1, r.nombre ≠ e.producto.nombre)
         ∧ q.nombre = e.producto.nombre
         ∧ (deshacerUltimaAccion s).1.inventario = l1 ++ l2
         ∧ (deshacerUltimaAccion s).1.historialCambios = l
         ∧ (deshacerUltimaAccion s).1.solicitudes = s.solicitudes
         ∧ (deshacerUltimaAccion s).1.clientesEnEspera = s.clientesEnEspera)
  ∧ ((∀ q ∈ s.inventario, q.nombre ≠ e.producto.nombre) →
       deshacerUltimaAccion s = ({ s with historialCambios := l }, [])) := by
  have hlast : s.historialCambios.getLast? = some e := by
    rw [hlog]
    exact List.getLast?_concat _
  have hdrop : s.historialCambios.dropLast = l := by
    rw [hlog]
    simp
  constructor
  · rintro ⟨q0, hq0, hq0n⟩
    have hpa : coincideNombre e.producto.nombre q0 = true := by
      simp [coincideNombre, hq0n]
    obtain ⟨y, hy⟩ : ∃ y,
        s.inventario.find? (coincideNombre e.producto.nombre) = some y := by
      have hs : (s.inventario.find? (coincideNombre e.producto.nombre)).isSome := by
        rw [List.find?_isSome]
        exact ⟨q0, hq0, hpa⟩
      exact Option.isSome_iff_exists.mp hs
    obtain ⟨q, l1, l2, hl1, hq, hsplit, herase⟩ := List.exists_of_eraseP hq0 hpa
    refine ⟨l1, q, l2, hsplit, ?_, by simpa [coincideNombre] using hq, ?_, ?_, ?_, ?_⟩
    · intro r hr
      have hnr := hl1 r hr
      simpa [coincideNombre] using hnr
    · rw [show (deshacerUltimaAccion s).1.inventario
          = s.inventario.eraseP (coincideNombre e.producto.nombre) by
        simp [deshacerUltimaAccion, hlast, htipo, hy]]
      exact herase
    · simp [deshacerUltimaAccion, hlast, htipo, hy, hdrop]
    · simp [deshacerUltimaAccion, hlast, htipo, hy]
    · simp [deshacerUltimaAccion, hlast, htipo, hy]
  · intro hnone
    have hf : s.inventario.find? (coincideNombre e.producto.nombre) = none := by
      rw [List.find?_eq_none]
      intro x hx
      simp only [coincideNombre, beq_iff_eq]
      exact hnone x hx
    simp [deshacerUltimaAccion, hlast, htipo, hf, hdrop]

/-- Witness for C4: undoing an add whose product was independently removed
consumes the entry, changes nothing else and produces no output. -/
theorem deshacer_entrada_agregar_witness :
    deshacerUltimaAccion estadoHuerfano = (estadoInicial, []) := by
  have h := (deshacer_entrada_agregar estadoHuerfano [] ⟨"agregar", prodA⟩ rfl
      rfl).2 (by intro q hq; simp [estadoHuerfano] at hq)
  exact h

/-- The listing comparator is transitive. -/
theorem nombreLE_trans (a b c : Producto) (hab : nombreLE a b)
    (hbc : nombreLE b c) : nombreLE a c := by
  simp only [nombreLE, decide_eq_true_eq] at hab hbc ⊢
  exact le_trans hab hbc

/-- The listing comparator is total. -/
theorem nombreLE_total (a b : Producto) : nombreLE a b || nombreLE b a := by
  simp only [nombreLE, Bool.or_eq_true, decide_eq_true_eq]
  exact le_total a.nombre b.nombre

/-- Claim C8: listing outputs the products in non-decreasing name order,
keeps the stored multiset of products unchanged, is stable (any sorted
sublist of the stored order survives as a sublist of the output), and
persists the sorted order in place: after the call the stored order is
exactly the printed order, while the other collections are untouched. -/
theorem listar_ordenado (s : SistemaGestion) :
    List.Pairwise (fun a b : Producto => a.nombre ≤ b.nombre) (listarProductos s).2
  ∧ (listarProductos s).2.Perm s.inventario
  ∧ (listarProductos s).1.inventario = (listarProductos s).2
  ∧ (∀ c : List Producto, c.Pairwise (fun a b => nombreLE a b) →
       c.Sublist s.inventario → c.Sublist (listarProductos s).2)
  ∧ (listarProductos s).1.solicitudes = s.solicitudes
  ∧ (listarProductos s).1.clientesEnEspera = s.clientesEnEspera
  ∧ (listarProductos s).1.historialCambios = s.historialCambios := by
  refine ⟨?_, ?_, rfl, ?_, rfl, rfl, rfl⟩
  · have hs := @List.sorted_mergeSort Producto nombreLE nombreLE_trans
      nombreLE_total s.inventario
    refine hs.imp ?_
    intro a b hab
    simpa [nombreLE] using hab
  · exact List.mergeSort_perm s.inventario nombreLE
  · intro c hc hsub
    exact List.sublist_mergeSort nombreLE_trans nombreLE_total hc hsub

/-- Witness for C8: listing a two-product state keeps both products and
the stable-sort clause applies to the singleton `[prodB]`. -/
theorem listar_ordenado_witness :
    (listarProductos estadoDesorden).2.Perm [prodA, prodB]
  ∧ [prodB].Sublist (listarProductos estadoDesorden).2 := by
  have h := listar_ordenado estadoDesorden
  exact ⟨h.2.1, h.2.2.2.1 [prodB] (by simp) (by simp [estadoDesorden])⟩

/-- Claim C9: processing a request on an empty queue reports that none are
pending and changes nothing; on a non-empty queue it removes exactly the
front element and reports it, shrinking the queue by one; hence after
registering `A` then `B` on an empty queue, processing reports `A`, not
`B`, and leaves `[B]` queued. -/
theorem procesar_fifo :
    (∀ s : SistemaGestion, s.solicitudes = [] →
       procesarSolicitud s = (s, ["No hay solicitudes pendientes."]))
  ∧ (∀ (s : SistemaGestion) (r : Solicitud) (resto : List Solicitud),
       s.solicitudes = r :: resto →
       (procesarSolicitud s).1 = { s with solicitudes := resto }
     ∧ (procesarSolicitud s).2 = ["Procesando solicitud: " ++ r.descripcion]
     ∧ (procesarSolicitud s).1.solicitudes.length + 1 = s.solicitudes.length)
  ∧ (∀ (s : SistemaGestion) (a b : Solicitud), s.solicitudes = [] →
       (procesarSolicitud
           (registrarSolicitud b (registrarSolicitud a s).1).1).2
         = ["Procesando solicitud: " ++ a.descripcion]
     ∧ (procesarSolicitud
           (registrarSolicitud b (registrarSolicitud a s).1).1).1.solicitudes
         = [b]) := by
  refine ⟨?_, ?_, ?_⟩
  · intro s h
    simp [procesarSolicitud, h]
  · intro s r resto h
    refine ⟨?_, ?_, ?_⟩ <;> simp [procesarSolicitud, h]
  · intro s a b h
    constructor <;> simp [procesarSolicitud, registrarSolicitud, h]

/-- Witness for C9: two concrete requests on the initial state are
processed first-in first-out. -/
theorem procesar_fifo_witness :
    (procesarSolicitud
        (registrarSolicitud solB (registrarSolicitud solA estadoInicial).1).1).2
      = ["Procesando solicitud: comprar pan"]
  ∧ (procesarSolicitud
        (registrarSolicitud solB (registrarSolicitud solA estadoInicial).1).1).1.solicitudes
      = [solB] := by
  have h := procesar_fifo.2.2 estadoInicial solA solB rfl
  simpa [solA] using h

/-- Undo never touches the request queue or the waitlist. -/
theorem deshacer_colas (s : SistemaGestion) :
    (deshacerUltimaAccion s).1.solicitudes = s.solicitudes
  ∧ (deshacerUltimaAccion s).1.clientesEnEspera = s.clientesEnEspera := by
  unfold deshacerUltimaAccion
  split
  · exact ⟨rfl, rfl⟩
  · dsimp only
    split
    · split
      · exact ⟨rfl, rfl⟩
      · exact ⟨rfl, rfl⟩
    · split
      · exact ⟨rfl, rfl⟩
      · exact ⟨rfl, rfl⟩

/-- Claim C10: the subsystems are pairwise isolated.  Request and client
operations leave the inventory and the change log unchanged; product
operations and undo leave the request queue and the waitlist unchanged;
the read-only operations leave the state entirely unchanged; attending a
client on an empty waitlist changes nothing. -/
theorem aislamiento_subsistemas (s : SistemaGestion) :
    (∀ r : Solicitud,
       (registrarSolicitud r s).1.inventario = s.inventario
     ∧ (registrarSolicitud r s).1.historialCambios = s.historialCambios)
  ∧ (procesarSolicitud s).1.inventario = s.inventario
  ∧ (procesarSolicitud s).1.historialCambios = s.historialCambios
  ∧ (consultarSolicitudEnProceso s).1 = s
  ∧ (listarSolicitudesPendientes s).1 = s
  ∧ (∀ c : Cliente,
       (registrarClienteEnEspera c s).1.inventario = s.inventario
     ∧ (registrarClienteEnEspera c s).1.historialCambios = s.historialCambios)
  ∧ (atenderCliente s).1.inventario = s.inventario
  ∧ (atenderCliente s).1.historialCambios = s.historialCambios
  ∧ (consultarListaDeEspera s).1 = s
  ∧ (∀ p : Producto,
       (registrarProducto p s).1.solicitudes = s.solicitudes
     ∧ (registrarProducto p s).1.clientesEnEspera = s.clientesEnEspera)
  ∧ (∀ n : String,
       (eliminarProducto n s).1.solicitudes = s.solicitudes
     ∧ (eliminarProducto n s).1.clientesEnEspera = s.clientesEnEspera)
  ∧ (∀ n : String, (consultarProducto n s).1 = s)
  ∧ (listarProductos s).1.solicitudes = s.solicitudes
  ∧ (listarProductos s).1.clientesEnEspera = s.clientesEnEspera
  ∧ (deshacerUltimaAccion s).1.solicitudes = s.solicitudes
  ∧ (deshacerUltimaAccion s).1.clientesEnEspera = s.clientesEnEspera
  ∧ (s.clientesEnEspera = [] →
       atenderCliente s = (s, ["No hay clientes en espera."])) := by
  refine ⟨fun r => ⟨rfl, rfl⟩, ?_, ?_, ?_, rfl, fun c => ⟨rfl, rfl⟩, ?_, ?_,
    rfl, fun p => ⟨rfl, rfl⟩, ?_, fun n => rfl, rfl, rfl,
    (deshacer_colas s).1, (deshacer_colas s).2, ?_⟩
  · cases h : s.solicitudes <;> simp [procesarSolicitud, h]
  · cases h : s.solicitudes <;> simp [procesarSolicitud, h]
  · cases h : s.solicitudes <;> simp [consultarSolicitudEnProceso, h]
  · cases h : s.clientesEnEspera <;> simp [atenderCliente, h]
  · cases h : s.clientesEnEspera <;> simp [atenderCliente, h]
  · intro n
    cases hf : s.inventario.find? (coincideNombre n) with
    | none => simp [eliminarProducto, hf]
    | some q => simp [eliminarProducto, hf]
  · intro h
    simp [atenderCliente, h]

/-- Witness for C10: attending a client on the empty initial state reports
an empty waitlist and changes nothing. -/
theorem aislamiento_subsistemas_witness :
    atenderCliente estadoInicial
      = (estadoInicial, ["No hay clientes en espera."]) := by
  have h := aislamiento_subsistemas estadoInicial
  exact h.2.2.2.2.2.2.2.2.2.2.2.2.2.2.2.2 rfl

/-- Undo always leaves the change log equal to the previous log without
its last entry (on an empty log both are empty). -/
theorem deshacer_historial (s : SistemaGestion) :
    (deshacerUltimaAccion s).1.historialCambios
      = s.historialCambios.dropLast := by
  unfold deshacerUltimaAccion
  cases hl : s.historialCambios.getLast? with
  | none =>
      have he : s.historialCambios = [] := List.getLast?_eq_none_iff.mp hl
      simp [he]
  | some c =>
      dsimp only
      split
      · split
        · rfl
        · rfl
      · split
        · rfl
        · rfl

/-- One menu action preserves the well-formedness of the change log: every
entry keeps kind `"agregar"` or `"eliminar"`. -/
theorem logKinds_applyOp (s : SistemaGestion) (op : Op)
    (h : ∀ c ∈ s.historialCambios, c.tipo = "agregar" ∨ c.tipo = "eliminar") :
    ∀ c ∈ (applyOp op s).historialCambios,
      c.tipo = "agregar" ∨ c.tipo = "eliminar" := by
  cases op with
  | registrarProductoOp p =>
      intro c hc
      simp only [applyOp, registrarProducto] at hc
      rcases List.mem_append.mp hc with h1 | h1
      · exact h c h1
      · left
        simp only [List.mem_singleton] at h1
        subst h1
        rfl
  | eliminarProductoOp n =>
      cases hf : s.inventario.find? (coincideNombre n) with
      | none => simpa [applyOp, eliminarProducto, hf] using h
      | some q =>
          intro c hc
          simp only [applyOp, eliminarProducto, hf] at hc
          rcases List.mem_append.mp hc with h1 | h1
          · exact h c h1
          · right
            simp only [List.mem_singleton] at h1
            subst h1
            rfl
  | deshacerOp =>
      intro c hc
      simp only [applyOp] at hc
      rw [deshacer_historial] at hc
      exact h c ((List.dropLast_sublist _).subset hc)
  | consultarProductoOp n => exact h
  | listarProductosOp => exact h
  | registrarSolicitudOp r => exact h
  | procesarSolicitudOp =>
      cases hq : s.solicitudes with
      | nil => simpa [applyOp, procesarSolicitud, hq] using h
      | cons r resto => simpa [applyOp, procesarSolicitud, hq] using h
  | consultarSolicitudOp =>
      cases hq : s.solicitudes with
      | nil => simpa [applyOp, consultarSolicitudEnProceso, hq] using h
      | cons r resto => simpa [applyOp, consultarSolicitudEnProceso, hq] using h
  | listarSolicitudesOp => exact h
  | registrarClienteOp c => exact h
  | atenderClienteOp =>
      cases hq : s.clientesEnEspera with
      | nil => simpa [applyOp, atenderCliente, hq] using h
      | cons c resto => simpa [applyOp, atenderCliente, hq] using h
  | consultarEsperaOp => exact h

/-- In every state reachable from the initial state, every change-log
entry has kind `"agregar"` or `"eliminar"`. -/
theorem logKinds_ejecutar (ops : List Op) :
    ∀ c ∈ (ejecutar ops).historialCambios,
      c.tipo = "agregar" ∨ c.tipo = "eliminar" := by
  suffices hgen : ∀ (l : List Op) (s : SistemaGestion),
      (∀ c ∈ s.historialCambios, c.tipo = "agregar" ∨ c.tipo = "eliminar") →
      ∀ c ∈ (l.foldl (fun t op => applyOp op t) s).historialCambios,
        c.tipo = "agregar" ∨ c.tipo = "eliminar" by
    exact hgen ops estadoInicial (by simp [estadoInicial])
  intro l
  induction l with
  | nil => intro s hs; simpa using hs
  | cons op rest ih =>
      intro s hs
      exact ih _ (logKinds_applyOp s op hs)

/-- Claim C3: in every state reachable from the empty initial state every
change-log entry has kind `"agregar"` or `"eliminar"`; moreover each menu
action either leaves the log unchanged, appends exactly one `"agregar"`
entry (a product registration), appends exactly one `"eliminar"` entry (a
successful deletion, snapshotting the found product), or removes the most
recent entry (undo on a non-empty log). -/
theorem historial_bien_formado :
    (∀ ops : List Op, ∀ c ∈ (ejecutar ops).historialCambios,
        c.tipo = "agregar" ∨ c.tipo = "eliminar")
  ∧ (∀ (s : SistemaGestion) (op : Op),
       (applyOp op s).historialCambios = s.historialCambios
     ∨ (∃ p : Producto, op = Op.registrarProductoOp p
         ∧ (applyOp op s).historialCambios
             = s.historialCambios ++ [⟨"agregar", p⟩])
     ∨ (∃ (n : String) (q : Producto), op = Op.eliminarProductoOp n
         ∧ s.inventario.find? (coincideNombre n) = some q
         ∧ (applyOp op s).historialCambios
             = s.historialCambios ++ [⟨"eliminar", q⟩])
     ∨ (op = Op.deshacerOp ∧ s.historialCambios ≠ []
         ∧ (applyOp op s).historialCambios = s.historialCambios.dropLast)) := by
  constructor
  · exact logKinds_ejecutar
  · intro s op
    cases op with
    | registrarProductoOp p => exact .inr (.inl ⟨p, rfl, rfl⟩)
    | eliminarProductoOp n =>
        cases hf : s.inventario.find? (coincideNombre n) with
        | none => exact .inl (by simp [applyOp, eliminarProducto, hf])
        | some q =>
            exact .inr (.inr (.inl
              ⟨n, q, rfl, hf, by simp [applyOp, eliminarProducto, hf]⟩))
    | deshacerOp =>
        cases hl : s.historialCambios.getLast? with
        | none =>
            have he : s.historialCambios = [] := List.getLast?_eq_none_iff.mp hl
            exact .inl (by simp [applyOp, deshacerUltimaAccion, hl, he])
        | some c =>
            refine .inr (.inr (.inr ⟨rfl, ?_, ?_⟩))
            · intro he
              rw [he] at hl
              simp at hl
            · simp only [applyOp]
              exact deshacer_historial s
    | consultarProductoOp n => exact .inl rfl
    | listarProductosOp => exact .inl rfl
    | registrarSolicitudOp r => exact .inl rfl
    | procesarSolicitudOp =>
        exact .inl (by cases hq : s.solicitudes <;>
          simp [applyOp, procesarSolicitud, hq])
    | consultarSolicitudOp =>
        exact .inl (by cases hq : s.solicitudes <;>
          simp [applyOp, consultarSolicitudEnProceso, hq])
    | listarSolicitudesOp => exact .inl rfl
    | registrarClienteOp c => exact .inl rfl
    | atenderClienteOp =>
        exact .inl (by cases hq : s.clientesEnEspera <;>
          simp [applyOp, atenderCliente, hq])
    | consultarEsperaOp => exact .inl rfl

/-- Witness for C3: the single entry logged by one registration has kind
`"agregar"` or `"eliminar"`. -/
theorem historial_bien_formado_witness :
    (⟨"agregar", prodA⟩ : Cambio).tipo = "agregar"
  ∨ (⟨"agregar", prodA⟩ : Cambio).tipo = "eliminar" :=
  historial_bien_formado.1 [Op.registrarProductoOp prodA] ⟨"agregar", prodA⟩
    (by simp [ejecutar, applyOp, registrarProducto, estadoInicial])

/-- Witness for C1: registering one product on the initial state and
undoing restores the empty change log. -/
theorem registrar_luego_deshacer_witness :
    (deshacerUltimaAccion (registrarProducto prodA estadoInicial).1).1.historialCambios
      = [] := by
  obtain ⟨l1, q, l2, -, -, -, -, -, hlog⟩ :=
    registrar_luego_deshacer estadoInicial prodA
  simpa [estadoInicial] using hlog

/-- Witness for C6: registering a concrete product on the initial state
stores it and logs it. -/
theorem registrarProducto_agrega_witness :
    (registrarProducto prodA estadoInicial).1.inventario = [prodA]
  ∧ (registrarProducto prodA estadoInicial).1.historialCambios
      = [⟨"agregar", prodA⟩] := by
  have h := registrarProducto_agrega estadoInicial prodA
  exact ⟨by simpa [estadoInicial] using h.1, by simpa [estadoInicial] using h.2.1⟩
